import Mathlib

/-!
Shallow embedding of `notif-stopped` (src/src/main.rs): a CLI tool that
watches for a named OS process to stop and then fires a single webhook POST.

OS effects are modelled explicitly:
  * the initial process-table snapshot is a list of (pid, name) records;
  * the liveness of the recorded pid after each refresh is an oracle
    `aliveAfter : Nat → Bool` (`aliveAfter k` = result of the k-th refresh);
  * the watch loop is fuel-indexed (`none` = the loop has not terminated
    within the fuel bound);
  * observable effects (url resolution, process lookup, sleeps, refreshes,
    HTTP posts, printed lines) are collected in a trace.
-/

namespace NotifStopped

/-- An entry of the OS process table: a process identifier and its name. -/
structure Proc where
  pid : Nat
  name : String
deriving DecidableEq, Repr

/-- `sysinfo`'s `processes_by_exact_name`: the processes of the snapshot whose
name equals `name` exactly, in table order. -/
def processes_by_exact_name (snapshot : List Proc) (name : String) : List Proc :=
  snapshot.filter (fun p => p.name == name)

/-- `s.process(pid).is_some()` evaluated against the startup snapshot. -/
def pidInSnapshot (snapshot : List Proc) (pid : Nat) : Bool :=
  snapshot.any (fun p => p.pid == pid)

/-- Events produced by the watch loop: a sleep of `check_interval` seconds, or
a refresh of the recorded pid (`s.refresh_pids(&[pid])`). -/
inductive WEvent where
  | sleep (secs : Nat)
  | refresh (pid : Nat)
deriving DecidableEq, Repr

/-- The `while s.process(pid).is_some()` loop of `block_while_process_running`.
`alive` is the current value of `s.process(pid).is_some()`, `k` counts the
refreshes already performed, and `fuel` bounds the number of iterations
(`none` when the loop does not terminate within the bound). Each iteration
sleeps for `interval` and then refreshes only `pid`, after which liveness is
`aliveAfter k`. -/
def watchLoop (interval pid : Nat) (aliveAfter : Nat → Bool) :
    Bool → Nat → Nat → Option (List WEvent)
  | false, _, _ => some []
  | true, _, 0 => none
  | true, k, fuel + 1 =>
    (watchLoop interval pid aliveAfter (aliveAfter k) (k + 1) fuel).map
      (fun evs => WEvent.sleep interval :: WEvent.refresh pid :: evs)

/-- `block_while_process_running(process_name, check_interval)`: takes the
startup snapshot, selects the first process whose name matches exactly,
returns `false` (with no events) if there is none, and otherwise loops —
sleep, then refresh only the recorded pid — until the pid no longer resolves,
returning `true` with the event trace. -/
def block_while_process_running (snapshot : List Proc) (aliveAfter : Nat → Bool)
    (process_name : String) (interval fuel : Nat) : Option (Bool × List WEvent) :=
  match processes_by_exact_name snapshot process_name with
  | [] => some (false, [])
  | p :: _ =>
    (watchLoop interval p.pid aliveAfter (pidInSnapshot snapshot p.pid) 0 fuel).map
      (fun evs => (true, evs))

/-- The event trace of a watch loop that runs exactly `k` iterations. -/
def watchTrace (interval pid : Nat) : Nat → List WEvent
  | 0 => []
  | k + 1 => WEvent.sleep interval :: WEvent.refresh pid :: watchTrace interval pid k

/-- The parsed CLI options (`struct Cli`). -/
structure Cli where
  process_name : String
  interval : Nat
  dry_run : Bool
deriving DecidableEq, Repr

/-- `Cli::enforce_invariants`: rejects an empty process name, then an
interval below one second. -/
def Cli.enforce_invariants (cli : Cli) : Except String Unit :=
  if cli.process_name.isEmpty then
    Except.error "process name can't be empty"
  else if cli.interval < 1 then
    Except.error "interval is too short (must be at least 1 second)"
  else
    Except.ok ()

/-- A `.env` file at some location: `none` when the file is absent
(io NotFound), `some (Except.error m)` when reading or parsing it fails with
message `m`, `some (Except.ok bindings)` when it parses to `bindings`. -/
abbrev EnvFile := Option (Except String (List (String × String)))

/-- The ambient state `get_webhook_url` reads: whether `current_exe` succeeds
(and its error message when not), whether the exe path has a parent
directory, the `.env` file at each of the two probed locations, and the
process environment. -/
structure EnvWorld where
  current_exe_ok : Except String Unit
  exe_has_parent : Bool
  exeDirEnvFile : EnvFile
  cwdEnvFile : EnvFile
  env : List (String × String)

/-- Modelled from the spec: `dotenvy` loads the bindings of a `.env` file
into the environment, and "values already set in the environment are not
overwritten by convention of the loader used" — a binding is added only when
its key is not yet present. The loader itself is a dependency whose code is
not in the repository. -/
def loadDotenv (env bindings : List (String × String)) : List (String × String) :=
  bindings.foldl
    (fun e kv => if (e.lookup kv.1).isSome then e else e ++ [kv]) env

/-- Rust's `str::starts_with` on a string pattern, as comparison of the
character lists. -/
def strStartsWith (s pat : String) : Bool :=
  pat.data.isPrefixOf s.data

/-- The final match of `get_webhook_url` on `std::env::var("NOTIF_URL")`:
unset is the `VarError` message, the empty string and a value not starting
with "http" are rejected, anything else is returned. -/
def notifUrlCheck (v : Option String) : Except String String :=
  match v with
  | none => Except.error "environment variable not found"
  | some p =>
    if p.isEmpty then
      Except.error "'NOTIF_URL' environment variable needs to be set (to the webhook url)"
    else if !strStartsWith p "http" then
      Except.error "`NOTIF_URL` must be a url"
    else
      Except.ok p

/-- Loading one `.env` location: an absent file is skipped, a malformed file
is an error built from `errCtx`, a parsed file is folded into the
environment without overwriting. -/
def loadLocation (file : EnvFile) (errCtx : String)
    (env : List (String × String)) : Except String (List (String × String)) :=
  match file with
  | none => Except.ok env
  | some (Except.error m) => Except.error (errCtx ++ m)
  | some (Except.ok bs) => Except.ok (loadDotenv env bs)

/-- `get_webhook_url`: resolves the exe directory, loads `.env` from the exe
directory and then from the current working directory (a missing file at
either location is tolerated, a malformed one is an error), then validates
`NOTIF_URL` from the resulting environment. -/
def get_webhook_url (w : EnvWorld) : Except String String :=
  match w.current_exe_ok with
  | Except.error e => Except.error ("failed to get current exe: " ++ e)
  | Except.ok _ =>
    if !w.exe_has_parent then
      Except.error "failed to get current exe's parent directory"
    else
      match loadLocation w.exeDirEnvFile "failed read .env file in exe directory: " w.env with
      | Except.error e => Except.error e
      | Except.ok env1 =>
        match loadLocation w.cwdEnvFile "failed read .env file in current working directory: " env1 with
        | Except.error e => Except.error e
        | Except.ok env2 => notifUrlCheck (env2.lookup "NOTIF_URL")

/-- Observable effects of a run, in order. -/
inductive Effect where
  | resolveUrl
  | processLookup (name : String)
  | sleepFor (secs : Nat)
  | refreshPid (pid : Nat)
  | httpPost (url : String)
  | printLine (s : String)
deriving DecidableEq, Repr

/-- Watch-loop events as run effects. -/
def wevToEffect : WEvent → Effect
  | WEvent.sleep s => Effect.sleepFor s
  | WEvent.refresh pid => Effect.refreshPid pid

/-- The whole ambient state a run reads: the CLI options, the environment
state, the startup process snapshot, the liveness oracle of the recorded
pid, the transport outcome of a POST to each url, and the loop fuel. -/
structure World where
  cli : Cli
  envWorld : EnvWorld
  snapshot : List Proc
  aliveAfter : Nat → Bool
  httpResult : String → Except String Unit
  fuel : Nat

/-- `run()`: enforce the CLI invariants, resolve the webhook url unless in
dry-run mode, block while the process is running (failing when it was not
running at all), then either POST to the url or just print the stopped
message. Returns `none` when the watch loop does not terminate within the
fuel bound, and otherwise the result together with the effect trace. -/
def run (w : World) : Option (Except String Unit × List Effect) :=
  match w.cli.enforce_invariants with
  | Except.error e => some (Except.error e, [])
  | Except.ok _ =>
    let maybe_url : Except String (Option String) :=
      if w.cli.dry_run then Except.ok none
      else
        match get_webhook_url w.envWorld with
        | Except.error e => Except.error e
        | Except.ok u => Except.ok (some u)
    let evs0 : List Effect := if w.cli.dry_run then [] else [Effect.resolveUrl]
    match maybe_url with
    | Except.error e => some (Except.error e, evs0)
    | Except.ok maybeUrl =>
      match block_while_process_running w.snapshot w.aliveAfter
          w.cli.process_name w.cli.interval w.fuel with
      | none => none
      | some (false, wevs) =>
        some (Except.error ("process isn't running: " ++ w.cli.process_name),
          evs0 ++ Effect.processLookup w.cli.process_name :: wevs.map wevToEffect)
      | some (true, wevs) =>
        let evs1 := evs0 ++ Effect.processLookup w.cli.process_name :: wevs.map wevToEffect
        match maybeUrl with
        | some url =>
          let evs2 := evs1
            ++ [Effect.printLine ("Process stopped, sending notification: " ++ w.cli.process_name),
                Effect.httpPost url]
          match w.httpResult url with
          | Except.error e => some (Except.error ("http request failed: " ++ e), evs2)
          | Except.ok _ => some (Except.ok (), evs2)
        | none =>
          some (Except.ok (), evs1 ++ [Effect.printLine ("Process stopped: " ++ w.cli.process_name)])

/-- `main()`: exit code 0 on `Ok`, exit code 1 with `error: <e>` on standard
error on `Err(e)`. -/
def mainRun (w : World) : Option (Nat × List Effect × Option String) :=
  (run w).map (fun r =>
    match r with
    | (Except.ok _, evs) => (0, evs, none)
    | (Except.error e, evs) => (1, evs, some ("error: " ++ e)))

/-! ### Concrete fixtures used to evaluate the definitions -/

/-- A concrete process snapshot. -/
def exSnapshot : List Proc := [⟨7, "app"⟩, ⟨9, "other"⟩]

/-- A concrete liveness oracle: the watched pid survives the first two
refreshes and is gone at the third. -/
def exAlive : Nat → Bool := fun k => decide (k < 2)

/-- A concrete environment state: no `.env` file anywhere, `NOTIF_URL` set. -/
def exEnvWorld : EnvWorld :=
  { current_exe_ok := Except.ok ()
    exe_has_parent := true
    exeDirEnvFile := none
    cwdEnvFile := none
    env := [("NOTIF_URL", "https://x/y")] }

/-- Like `exEnvWorld` but with an empty process environment. -/
def exEnvWorldUnset : EnvWorld :=
  { current_exe_ok := Except.ok ()
    exe_has_parent := true
    exeDirEnvFile := none
    cwdEnvFile := none
    env := [] }

/-- A concrete non-dry-run world whose watched process is running. -/
def exWorld : World :=
  { cli := { process_name := "app", interval := 1, dry_run := false }
    envWorld := exEnvWorld
    snapshot := exSnapshot
    aliveAfter := exAlive
    httpResult := fun _ => Except.ok ()
    fuel := 10 }

/-- A concrete non-dry-run world with `NOTIF_URL` unset. -/
def exWorldUnset : World :=
  { cli := { process_name := "app", interval := 1, dry_run := false }
    envWorld := exEnvWorldUnset
    snapshot := exSnapshot
    aliveAfter := exAlive
    httpResult := fun _ => Except.ok ()
    fuel := 10 }

/-- A concrete dry-run world whose watched process does not exist. -/
def exWorldDryGhost : World :=
  { cli := { process_name := "ghost", interval := 1, dry_run := true }
    envWorld := exEnvWorldUnset
    snapshot := exSnapshot
    aliveAfter := exAlive
    httpResult := fun _ => Except.ok ()
    fuel := 10 }

/-- A concrete non-dry-run world whose watched process does not exist. -/
def exWorldGhost : World :=
  { cli := { process_name := "ghost", interval := 1, dry_run := false }
    envWorld := exEnvWorld
    snapshot := exSnapshot
    aliveAfter := exAlive
    httpResult := fun _ => Except.ok ()
    fuel := 10 }

/-- A concrete world with an empty process name and a too-short interval. -/
def exWorldBadCli : World :=
  { cli := { process_name := "", interval := 0, dry_run := false }
    envWorld := exEnvWorld
    snapshot := exSnapshot
    aliveAfter := exAlive
    httpResult := fun _ => Except.ok ()
    fuel := 10 }

/-! ### Watch-loop lemmas -/

/-- A loop started on a dead pid exits at once with no events. -/
theorem watchLoop_not_alive (interval pid : Nat) (A : Nat → Bool) (k fuel : Nat) :
    watchLoop interval pid A false k fuel = some [] := by
  cases fuel <;> rfl

/-- Soundness of the loop: a terminating run from a live pid produced the
canonical trace of `k + 1` iterations, where `k` is the first refresh index
at which the pid was dead. -/
theorem watchLoop_sound (interval pid : Nat) (A : Nat → Bool) :
    ∀ fuel i evs, watchLoop interval pid A true i fuel = some evs →
      ∃ k, evs = watchTrace interval pid (k + 1) ∧ A (i + k) = false ∧
        ∀ j, j < k → A (i + j) = true := by
  intro fuel
  induction fuel with
  | zero =>
    intro i evs h
    simp [watchLoop] at h
  | succ n ih =>
    intro i evs h
    simp only [watchLoop, Option.map_eq_some'] at h
    obtain ⟨evs', hloop, hevs⟩ := h
    by_cases hAi : A i = true
    · rw [hAi] at hloop
      obtain ⟨k, hk, hdead, hlive⟩ := ih (i + 1) evs' hloop
      refine ⟨k + 1, ?_, ?_, ?_⟩
      · rw [← hevs, hk]; rfl
      · have : i + (k + 1) = i + 1 + k := by omega
        rw [this]; exact hdead
      · intro j hj
        cases j with
        | zero => simpa using hAi
        | succ j' =>
          have : i + (j' + 1) = i + 1 + j' := by omega
          rw [this]; exact hlive j' (by omega)
    · have hAi' : A i = false := by simpa using hAi
      rw [hAi', watchLoop_not_alive] at hloop
      obtain rfl : evs' = [] := by simpa using hloop.symm
      refine ⟨0, ?_, by simpa using hAi', by intro j hj; omega⟩
      rw [← hevs]; rfl

/-- Completeness of the loop: if the pid first dies at refresh index `k` and
fuel suffices, the loop terminates with the canonical trace of `k + 1`
iterations. -/
theorem watchLoop_complete (interval pid : Nat) (A : Nat → Bool) :
    ∀ k i fuel, A (i + k) = false → (∀ j, j < k → A (i + j) = true) →
      k < fuel →
      watchLoop interval pid A true i fuel = some (watchTrace interval pid (k + 1)) := by
  intro k
  induction k with
  | zero =>
    intro i fuel hdead _ hfuel
    obtain ⟨n, rfl⟩ : ∃ n, fuel = n + 1 := ⟨fuel - 1, by omega⟩
    have hAi : A i = false := by simpa using hdead
    simp only [watchLoop, hAi, watchLoop_not_alive]
    rfl
  | succ k' ih =>
    intro i fuel hdead hlive hfuel
    obtain ⟨n, rfl⟩ : ∃ n, fuel = n + 1 := ⟨fuel - 1, by omega⟩
    have hAi : A i = true := by simpa using hlive 0 (by omega)
    have hrec : watchLoop interval pid A (A i) (i + 1) n =
        some (watchTrace interval pid (k' + 1)) := by
      rw [hAi]
      refine ih (i + 1) n ?_ ?_ (by omega)
      · have : i + 1 + k' = i + (k' + 1) := by omega
        rw [this]; exact hdead
      · intro j hj
        have : i + 1 + j = i + (j + 1) := by omega
        rw [this]; exact hlive (j + 1) (by omega)
    simp only [watchLoop, hrec]
    rfl

/-- The head of the exact-name filter is a process of the snapshot, so its
pid resolves against the startup snapshot. -/
theorem pidInSnapshot_of_filter_head (snapshot : List Proc) (name : String)
    (p : Proc) (rest : List Proc)
    (h : processes_by_exact_name snapshot name = p :: rest) :
    pidInSnapshot snapshot p.pid = true := by
  have hp : p ∈ processes_by_exact_name snapshot name := by
    rw [h]; exact List.mem_cons_self _ _
  have hmem : p ∈ snapshot := List.mem_of_mem_filter hp
  simp only [pidInSnapshot, List.any_eq_true]
  exact ⟨p, hmem, by simp⟩

/-! ### Environment-lookup lemmas -/

/-- A key found in the left part of an append is found in the append. -/
theorem lookup_append_left {α β : Type} [BEq α] (l1 l2 : List (α × β)) (k : α) (v : β)
    (h : l1.lookup k = some v) : (l1 ++ l2).lookup k = some v := by
  induction l1 with
  | nil => simp [List.lookup] at h
  | cons kv t ih =>
    obtain ⟨a, b⟩ := kv
    simp only [List.lookup, List.cons_append] at h ⊢
    cases hk : k == a with
    | true => rw [hk] at h; simpa using h
    | false => rw [hk] at h; simp only at h; exact ih h

/-- A key absent from the left part of an append is looked up in the right. -/
theorem lookup_append_right {α β : Type} [BEq α] (l1 l2 : List (α × β)) (k : α)
    (h : l1.lookup k = none) : (l1 ++ l2).lookup k = l2.lookup k := by
  induction l1 with
  | nil => rfl
  | cons kv t ih =>
    obtain ⟨a, b⟩ := kv
    simp only [List.lookup, List.cons_append] at h ⊢
    cases hk : k == a with
    | true => rw [hk] at h; simp at h
    | false => rw [hk] at h; simp only at h ⊢; exact ih h

/-- Unfolding one binding of the loader. -/
theorem loadDotenv_cons (env : List (String × String)) (kv : String × String)
    (t : List (String × String)) :
    loadDotenv env (kv :: t) =
      loadDotenv (if (env.lookup kv.1).isSome then env else env ++ [kv]) t := rfl

/-- The loader never overwrites a value already present in the environment. -/
theorem lookup_loadDotenv (bindings : List (String × String)) :
    ∀ env k v, env.lookup k = some v → (loadDotenv env bindings).lookup k = some v := by
  induction bindings with
  | nil => intro env k v h; simpa [loadDotenv] using h
  | cons kv t ih =>
    intro env k v h
    rw [loadDotenv_cons]
    by_cases hs : (env.lookup kv.1).isSome = true
    · rw [if_pos hs]; exact ih env k v h
    · rw [if_neg hs]; exact ih _ k v (lookup_append_left _ _ _ _ h)

/-- A successful url check returned a non-empty value starting with "http". -/
theorem notifUrlCheck_ok (v : Option String) (u : String)
    (h : notifUrlCheck v = Except.ok u) :
    u.isEmpty = false ∧ strStartsWith u "http" = true := by
  unfold notifUrlCheck at h
  match v with
  | none => simp at h
  | some p =>
    simp only at h
    by_cases h1 : p.isEmpty = true
    · rw [if_pos h1] at h; simp at h
    · rw [if_neg h1] at h
      by_cases h2 : (!strStartsWith p "http") = true
      · rw [if_pos h2] at h; simp at h
      · rw [if_neg h2] at h
        obtain rfl : p = u := by simpa using h
        refine ⟨by simpa using h1, by simpa using h2⟩

/-- A successful `get_webhook_url` returned a non-empty value starting with
"http". -/
theorem get_webhook_url_ok (w : EnvWorld) (u : String)
    (h : get_webhook_url w = Except.ok u) :
    u.isEmpty = false ∧ strStartsWith u "http" = true := by
  unfold get_webhook_url at h
  split at h
  · simp at h
  · split at h
    · simp at h
    · split at h
      · simp at h
      · split at h
        · simp at h
        · exact notifUrlCheck_ok _ _ h

/-- Watch-loop events never show up as url resolution or HTTP posts. -/
theorem wevToEffect_ne (wev : WEvent) :
    wevToEffect wev ≠ Effect.resolveUrl ∧ ∀ u, wevToEffect wev ≠ Effect.httpPost u := by
  cases wev <;> simp [wevToEffect]

/-! ### Claim theorems -/

/-- Claim C10: when an invocation is invalid in both ways (empty name and
interval below one second), `enforce_invariants` checks the name first, so
the error is always "process name can't be empty". -/
theorem C10_empty_name_error_wins (cli : Cli)
    (hname : cli.process_name = "") (hint : cli.interval < 1) :
    cli.enforce_invariants = Except.error "process name can't be empty" := by
  have he : cli.process_name.isEmpty = true := by rw [hname]; rfl
  simp [Cli.enforce_invariants, he]

/-- Witness for C10 at the doubly invalid invocation `⟨"", 0, false⟩`. -/
theorem C10_empty_name_error_wins_witness :
    Cli.enforce_invariants ⟨"", 0, false⟩ = Except.error "process name can't be empty" :=
  C10_empty_name_error_wins ⟨"", 0, false⟩ rfl (by decide)

/-- Claim C7: for an empty process name or an interval below one second,
validation fails and the run stops with that error, exit code 1 and an empty
effect trace — in particular before any process lookup. -/
theorem C7_validation_short_circuits (w : World)
    (h : w.cli.process_name = "" ∨ w.cli.interval < 1) :
    ∃ msg, w.cli.enforce_invariants = Except.error msg ∧
      run w = some (Except.error msg, []) ∧
      mainRun w = some (1, [], some ("error: " ++ msg)) := by
  obtain ⟨msg, hmsg⟩ : ∃ msg, w.cli.enforce_invariants = Except.error msg := by
    by_cases hc : w.cli.process_name.isEmpty = true
    · exact ⟨"process name can't be empty", by simp [Cli.enforce_invariants, hc]⟩
    · have hint : w.cli.interval < 1 := by
        rcases h with h | h
        · exact absurd (by rw [h]; rfl) hc
        · exact h
      exact ⟨"interval is too short (must be at least 1 second)",
        by simp [Cli.enforce_invariants, hc, hint]⟩
  exact ⟨msg, hmsg, by simp [run, hmsg], by simp [mainRun, run, hmsg]⟩

/-- Witness for C7 at the doubly invalid world `exWorldBadCli`. -/
theorem C7_validation_short_circuits_witness :
    ∃ msg, exWorldBadCli.cli.enforce_invariants = Except.error msg ∧
      run exWorldBadCli = some (Except.error msg, []) ∧
      mainRun exWorldBadCli = some (1, [], some ("error: " ++ msg)) :=
  C7_validation_short_circuits exWorldBadCli (Or.inl rfl)

/-- Claim C8: the exit code is 0 exactly when `run` returns `Ok`, and 1 on
any error, with the error text printed to standard error prefixed
"error: ". -/
theorem C8_exit_codes (w : World) (r : Except String Unit) (evs : List Effect)
    (hrun : run w = some (r, evs)) :
    (r = Except.ok () → mainRun w = some (0, evs, none)) ∧
    (∀ e, r = Except.error e → mainRun w = some (1, evs, some ("error: " ++ e))) ∧
    (∀ c evs' o, mainRun w = some (c, evs', o) → (c = 0 ↔ r = Except.ok ())) := by
  refine ⟨?_, ?_, ?_⟩
  · rintro rfl
    simp [mainRun, hrun]
  · rintro e rfl
    simp [mainRun, hrun]
  · intro c evs' o hm
    match r with
    | Except.ok () =>
      simp [mainRun, hrun] at hm
      simp [← hm.1]
    | Except.error e =>
      simp [mainRun, hrun] at hm
      simp [← hm.1]

/-- Witness for C8 at the dry-run world whose process is absent: exit code 1
with the error line. -/
theorem C8_exit_codes_witness :
    mainRun exWorldDryGhost =
      some (1, [Effect.processLookup "ghost"], some ("error: " ++ "process isn't running: ghost")) :=
  (C8_exit_codes exWorldDryGhost (Except.error "process isn't running: ghost")
      [Effect.processLookup "ghost"] rfl).2.1 "process isn't running: ghost" rfl

/-- Claim C1: for every process name and interval ≥ 1s, the watcher takes one
snapshot; with no exact-name match it returns `false` immediately with no
events; otherwise it records the first match's pid and, sleeping for the
interval then refreshing only that pid, returns `true` exactly when the pid
first stops resolving. -/
theorem C1_block_while_process_running_spec
    (snapshot : List Proc) (A : Nat → Bool) (name : String) (interval fuel : Nat)
    (hinterval : 1 ≤ interval) :
    (processes_by_exact_name snapshot name = [] →
      block_while_process_running snapshot A name interval fuel = some (false, [])) ∧
    (∀ p rest, processes_by_exact_name snapshot name = p :: rest →
      (∀ b evs, block_while_process_running snapshot A name interval fuel = some (b, evs) →
        b = true ∧ ∃ k, evs = watchTrace interval p.pid (k + 1) ∧
          A k = false ∧ ∀ j, j < k → A j = true) ∧
      (∀ k, A k = false → (∀ j, j < k → A j = true) → k < fuel →
        block_while_process_running snapshot A name interval fuel =
          some (true, watchTrace interval p.pid (k + 1)))) := by
  constructor
  · intro hnone
    simp [block_while_process_running, hnone]
  · intro p rest hfound
    have hpid := pidInSnapshot_of_filter_head snapshot name p rest hfound
    constructor
    · intro b evs hb
      simp only [block_while_process_running, hfound, hpid, Option.map_eq_some'] at hb
      obtain ⟨evs', hloop, hpair⟩ := hb
      obtain ⟨rfl, rfl⟩ : true = b ∧ evs' = evs := by
        constructor <;> [exact congrArg Prod.fst hpair; exact congrArg Prod.snd hpair]
      obtain ⟨k, hk, hdead, hlive⟩ := watchLoop_sound interval p.pid A fuel 0 evs' hloop
      exact ⟨rfl, k, hk, by simpa using hdead, fun j hj => by simpa using hlive j hj⟩
    · intro k hdead hlive hfuel
      simp only [block_while_process_running, hfound, hpid,
        watchLoop_complete interval p.pid A k 0 fuel (by simpa using hdead)
          (fun j hj => by simpa using hlive j hj) hfuel]
      rfl

/-- Witness for C1: on the concrete snapshot the watcher finds pid 7 of
"app", runs three iterations and returns `true`. -/
theorem C1_block_while_process_running_spec_witness :
    block_while_process_running exSnapshot exAlive "app" 1 10 =
      some (true, watchTrace 1 7 3) :=
  ((C1_block_while_process_running_spec exSnapshot exAlive "app" 1 10 (by decide)).2
    ⟨7, "app"⟩ [] rfl).2 2 (by decide) (by decide) (by decide)

/-- Claim C9: when the named process is found in the startup snapshot, the
watcher sleeps before anything else — its event trace starts with a sleep of
the check interval — so it never returns `true` without sleeping at least
once. -/
theorem C9_sleeps_at_least_once
    (snapshot : List Proc) (A : Nat → Bool) (name : String) (interval fuel : Nat)
    (p : Proc) (rest : List Proc)
    (hfound : processes_by_exact_name snapshot name = p :: rest)
    (b : Bool) (evs : List WEvent)
    (hrun : block_while_process_running snapshot A name interval fuel = some (b, evs)) :
    b = true ∧ evs.head? = some (WEvent.sleep interval) ∧ WEvent.sleep interval ∈ evs := by
  have hpid := pidInSnapshot_of_filter_head snapshot name p rest hfound
  simp only [block_while_process_running, hfound, hpid, Option.map_eq_some'] at hrun
  obtain ⟨evs', hloop, hpair⟩ := hrun
  obtain ⟨rfl, rfl⟩ : true = b ∧ evs' = evs := by
    constructor <;> [exact congrArg Prod.fst hpair; exact congrArg Prod.snd hpair]
  obtain ⟨k, hk, -, -⟩ := watchLoop_sound interval p.pid A fuel 0 evs' hloop
  subst hk
  exact ⟨rfl, rfl, by simp [watchTrace]⟩

/-- Witness for C9 on the concrete snapshot: the trace of the terminating
watch starts with a one-second sleep. -/
theorem C9_sleeps_at_least_once_witness :
    true = true ∧ (watchTrace 1 7 3).head? = some (WEvent.sleep 1) ∧
      WEvent.sleep 1 ∈ watchTrace 1 7 3 :=
  C9_sleeps_at_least_once exSnapshot exAlive "app" 1 10 ⟨7, "app"⟩ [] rfl
    true (watchTrace 1 7 3) rfl

/-- Claim C2: in non-dry-run mode url resolution happens before the watcher:
a successful resolution always yields a non-empty "http"-prefixed url (so an
unset, empty or non-http `NOTIF_URL` resolves to an error), a failing
resolution makes the run return that error with a trace holding only the
resolution effect (no process lookup), and every terminating run's trace
starts with the resolution effect. -/
theorem C2_url_resolution_before_watch (w : World)
    (hdry : w.cli.dry_run = false)
    (hok : w.cli.enforce_invariants = Except.ok ()) :
    (∀ u, get_webhook_url w.envWorld = Except.ok u →
      u.isEmpty = false ∧ strStartsWith u "http" = true) ∧
    (∀ e, get_webhook_url w.envWorld = Except.error e →
      run w = some (Except.error e, [Effect.resolveUrl]) ∧
      ∀ n, Effect.processLookup n ∉ [Effect.resolveUrl]) ∧
    (∀ r evs, run w = some (r, evs) → evs.head? = some Effect.resolveUrl) := by
  refine ⟨fun u hu => get_webhook_url_ok w.envWorld u hu, ?_, ?_⟩
  · intro e he
    refine ⟨by simp [run, hok, hdry, he], by simp⟩
  · intro r evs hrun
    simp only [run, hok, hdry, Bool.false_eq_true, if_false] at hrun
    cases hgwu : get_webhook_url w.envWorld with
    | error e =>
      rw [hgwu] at hrun
      simp only [Option.some.injEq, Prod.mk.injEq] at hrun
      rw [← hrun.2]
      rfl
    | ok u =>
      rw [hgwu] at hrun
      simp only at hrun
      cases hblock : block_while_process_running w.snapshot w.aliveAfter
          w.cli.process_name w.cli.interval w.fuel with
      | none => rw [hblock] at hrun; simp at hrun
      | some res =>
        rw [hblock] at hrun
        obtain ⟨b, wevs⟩ := res
        cases b with
        | false =>
          simp only [Option.some.injEq, Prod.mk.injEq] at hrun
          rw [← hrun.2]
          rfl
        | true =>
          cases hhttp : w.httpResult u with
          | error e =>
            rw [hhttp] at hrun
            simp only [Option.some.injEq, Prod.mk.injEq] at hrun
            rw [← hrun.2]
            rfl
          | ok x =>
            rw [hhttp] at hrun
            simp only [Option.some.injEq, Prod.mk.injEq] at hrun
            rw [← hrun.2]
            rfl

/-- Witness for C2 at the concrete world with `NOTIF_URL` unset: the run
fails with the resolution error and only the resolution effect. -/
theorem C2_url_resolution_before_watch_witness :
    run exWorldUnset = some (Except.error "environment variable not found", [Effect.resolveUrl]) :=
  (((C2_url_resolution_before_watch exWorldUnset rfl rfl).2.1
    "environment variable not found" rfl)).1

/-- Claim C3: with the dry-run flag set, no url resolution effect and no
HTTP post effect ever appears in the run's trace, whatever the environment
holds. -/
theorem C3_dry_run_skips_resolution_and_send (w : World)
    (hdry : w.cli.dry_run = true)
    (r : Except String Unit) (evs : List Effect)
    (hrun : run w = some (r, evs)) :
    Effect.resolveUrl ∉ evs ∧ ∀ u, Effect.httpPost u ∉ evs := by
  cases henf : w.cli.enforce_invariants with
  | error e =>
    simp only [run, henf, Option.some.injEq, Prod.mk.injEq] at hrun
    rw [← hrun.2]
    simp
  | ok x =>
    obtain rfl : x = () := rfl
    simp only [run, henf, hdry, if_true] at hrun
    cases hblock : block_while_process_running w.snapshot w.aliveAfter
        w.cli.process_name w.cli.interval w.fuel with
    | none => rw [hblock] at hrun; simp at hrun
    | some res =>
      rw [hblock] at hrun
      obtain ⟨b, wevs⟩ := res
      have hevs : Effect.processLookup w.cli.process_name :: wevs.map wevToEffect = evs ∨
          Effect.processLookup w.cli.process_name :: wevs.map wevToEffect
            ++ [Effect.printLine ("Process stopped: " ++ w.cli.process_name)] = evs := by
        cases b with
        | false =>
          simp only [Option.some.injEq, Prod.mk.injEq, List.nil_append] at hrun
          exact Or.inl hrun.2
        | true =>
          simp only [Option.some.injEq, Prod.mk.injEq, List.nil_append] at hrun
          exact Or.inr hrun.2
      have hforall : ∀ ev ∈ evs, ev ≠ Effect.resolveUrl ∧ ∀ u, ev ≠ Effect.httpPost u := by
        intro ev hev
        rcases hevs with hevs | hevs <;> rw [← hevs] at hev
        · rcases List.mem_cons.mp hev with rfl | hev
          · exact ⟨by simp, by simp⟩
          · obtain ⟨wev, -, rfl⟩ := List.mem_map.mp hev
            exact wevToEffect_ne wev
        · rcases List.mem_append.mp hev with hev | hev
          · rcases List.mem_cons.mp hev with rfl | hev
            · exact ⟨by simp, by simp⟩
            · obtain ⟨wev, -, rfl⟩ := List.mem_map.mp hev
              exact wevToEffect_ne wev
          · obtain rfl : ev = Effect.printLine ("Process stopped: " ++ w.cli.process_name) := by
              simpa using hev
            exact ⟨by simp, by simp⟩
      exact ⟨fun hmem => (hforall _ hmem).1 rfl, fun u hmem => (hforall _ hmem).2 u rfl⟩

/-- Witness for C3 at the concrete dry-run world whose process is absent. -/
theorem C3_dry_run_skips_resolution_and_send_witness :
    Effect.resolveUrl ∉ [Effect.processLookup "ghost"] ∧
      Effect.httpPost "https://x/y" ∉ [Effect.processLookup "ghost"] :=
  ⟨(C3_dry_run_skips_resolution_and_send exWorldDryGhost rfl
      (Except.error "process isn't running: ghost") [Effect.processLookup "ghost"] rfl).1,
   (C3_dry_run_skips_resolution_and_send exWorldDryGhost rfl
      (Except.error "process isn't running: ghost") [Effect.processLookup "ghost"] rfl).2
      "https://x/y"⟩

/-- Claim C4: when no process with the given exact name exists at startup
(and the run reaches the watcher — dry-run, or url resolution succeeded),
the watcher returns `false`, the run errors with "process isn't running:
<name>", exit code 1, and no HTTP post effect occurs. -/
theorem C4_missing_process_no_notification (w : World)
    (hok : w.cli.enforce_invariants = Except.ok ())
    (habsent : processes_by_exact_name w.snapshot w.cli.process_name = [])
    (hres : w.cli.dry_run = true ∨ ∃ u, get_webhook_url w.envWorld = Except.ok u) :
    block_while_process_running w.snapshot w.aliveAfter
        w.cli.process_name w.cli.interval w.fuel = some (false, []) ∧
    ∃ evs, run w = some (Except.error ("process isn't running: " ++ w.cli.process_name), evs) ∧
      (∀ u, Effect.httpPost u ∉ evs) ∧
      mainRun w = some (1, evs,
        some ("error: " ++ ("process isn't running: " ++ w.cli.process_name))) := by
  have hblock : block_while_process_running w.snapshot w.aliveAfter
      w.cli.process_name w.cli.interval w.fuel = some (false, []) := by
    simp [block_while_process_running, habsent]
  refine ⟨hblock, ?_⟩
  rcases hres with hdry | ⟨u, hurl⟩
  · refine ⟨[Effect.processLookup w.cli.process_name], ?_, by simp, ?_⟩
    · simp [run, hok, hdry, hblock]
    · simp [mainRun, run, hok, hdry, hblock]
  · have hdry' : w.cli.dry_run = true ∨ w.cli.dry_run = false := by
      cases w.cli.dry_run <;> simp
    rcases hdry' with hdry | hdry
    · refine ⟨[Effect.processLookup w.cli.process_name], ?_, by simp, ?_⟩
      · simp [run, hok, hdry, hblock]
      · simp [mainRun, run, hok, hdry, hblock]
    · refine ⟨[Effect.resolveUrl, Effect.processLookup w.cli.process_name], ?_, by simp, ?_⟩
      · simp [run, hok, hdry, hurl, hblock]
      · simp [mainRun, run, hok, hdry, hurl, hblock]

/-- Witness for C4 at the concrete non-dry-run world watching "ghost". -/
theorem C4_missing_process_no_notification_witness :
    block_while_process_running exWorldGhost.snapshot exWorldGhost.aliveAfter
        exWorldGhost.cli.process_name exWorldGhost.cli.interval exWorldGhost.fuel =
      some (false, []) ∧
    ∃ evs, run exWorldGhost =
        some (Except.error ("process isn't running: " ++ exWorldGhost.cli.process_name), evs) ∧
      (∀ u, Effect.httpPost u ∉ evs) ∧
      mainRun exWorldGhost = some (1, evs,
        some ("error: " ++ ("process isn't running: " ++ exWorldGhost.cli.process_name))) :=
  C4_missing_process_no_notification exWorldGhost rfl rfl
    (Or.inr ⟨"https://x/y", rfl⟩)

/-- Claim C5: url resolution loads `.env` first from the exe's directory and
then from the working directory; a missing file at either location is not an
error, a malformed one is; already-set environment values are never
overwritten (so the plain environment, then the exe-dir file, wins). -/
theorem C5_env_file_resolution (w : EnvWorld)
    (hexe : w.current_exe_ok = Except.ok ())
    (hpar : w.exe_has_parent = true) :
    (w.exeDirEnvFile = none → w.cwdEnvFile = none →
      get_webhook_url w = notifUrlCheck (w.env.lookup "NOTIF_URL")) ∧
    (∀ m, w.exeDirEnvFile = some (Except.error m) →
      get_webhook_url w = Except.error ("failed read .env file in exe directory: " ++ m)) ∧
    (∀ m, w.exeDirEnvFile = none → w.cwdEnvFile = some (Except.error m) →
      get_webhook_url w =
        Except.error ("failed read .env file in current working directory: " ++ m)) ∧
    (∀ v bs1 bs2, w.env.lookup "NOTIF_URL" = some v →
      w.exeDirEnvFile = some (Except.ok bs1) → w.cwdEnvFile = some (Except.ok bs2) →
      get_webhook_url w = notifUrlCheck (some v)) ∧
    (∀ v1 v2, w.env.lookup "NOTIF_URL" = none →
      w.exeDirEnvFile = some (Except.ok [("NOTIF_URL", v1)]) →
      w.cwdEnvFile = some (Except.ok [("NOTIF_URL", v2)]) →
      get_webhook_url w = notifUrlCheck (some v1)) := by
  refine ⟨?_, ?_, ?_, ?_, ?_⟩
  · intro h1 h2
    simp [get_webhook_url, hexe, hpar, h1, h2, loadLocation]
  · intro m h1
    simp [get_webhook_url, hexe, hpar, h1, loadLocation]
  · intro m h1 h2
    simp [get_webhook_url, hexe, hpar, h1, h2, loadLocation]
  · intro v bs1 bs2 hv h1 h2
    have e1 : (loadDotenv w.env bs1).lookup "NOTIF_URL" = some v :=
      lookup_loadDotenv bs1 w.env _ _ hv
    have e2 : (loadDotenv (loadDotenv w.env bs1) bs2).lookup "NOTIF_URL" = some v :=
      lookup_loadDotenv bs2 _ _ _ e1
    simp [get_webhook_url, hexe, hpar, h1, h2, loadLocation, e2]
  · intro v1 v2 hnone h1 h2
    have e1 : loadDotenv w.env [("NOTIF_URL", v1)] = w.env ++ [("NOTIF_URL", v1)] := by
      simp [loadDotenv, hnone]
    have e1l : (w.env ++ [("NOTIF_URL", v1)]).lookup "NOTIF_URL" = some v1 := by
      rw [lookup_append_right _ _ _ hnone]
      simp [List.lookup]
    have e2 : loadDotenv (w.env ++ [("NOTIF_URL", v1)]) [("NOTIF_URL", v2)] =
        w.env ++ [("NOTIF_URL", v1)] := by
      simp [loadDotenv, e1l]
    simp [get_webhook_url, hexe, hpar, h1, h2, loadLocation, e1, e2, e1l]

/-- Witness for C5 at the concrete environment with no `.env` files: the
resolution is decided by the plain environment. -/
theorem C5_env_file_resolution_witness :
    get_webhook_url exEnvWorld = notifUrlCheck (exEnvWorld.env.lookup "NOTIF_URL") :=
  (C5_env_file_resolution exEnvWorld rfl rfl).1 rfl rfl

/-- Claim C6: in non-dry-run mode with a resolved url, once the watched
process stops the run performs exactly one HTTP post, to that url, after
printing the dispatch message; a transport success (the status is never
inspected) gives exit 0, a transport error is wrapped and gives exit 1. -/
theorem C6_single_post_transport_only (w : World)
    (hok : w.cli.enforce_invariants = Except.ok ())
    (hdry : w.cli.dry_run = false)
    (u : String) (hurl : get_webhook_url w.envWorld = Except.ok u)
    (wevs : List WEvent)
    (hwatch : block_while_process_running w.snapshot w.aliveAfter
        w.cli.process_name w.cli.interval w.fuel = some (true, wevs)) :
    ∃ evs,
      evs.count (Effect.httpPost u) = 1 ∧
      (∀ v, Effect.httpPost v ∈ evs → v = u) ∧
      Effect.printLine ("Process stopped, sending notification: " ++ w.cli.process_name) ∈ evs ∧
      (w.httpResult u = Except.ok () →
        run w = some (Except.ok (), evs) ∧ mainRun w = some (0, evs, none)) ∧
      (∀ e, w.httpResult u = Except.error e →
        run w = some (Except.error ("http request failed: " ++ e), evs) ∧
        mainRun w = some (1, evs, some ("error: " ++ ("http request failed: " ++ e)))) := by
  refine ⟨([Effect.resolveUrl] ++ Effect.processLookup w.cli.process_name :: wevs.map wevToEffect)
      ++ [Effect.printLine ("Process stopped, sending notification: " ++ w.cli.process_name),
          Effect.httpPost u], ?_, ?_, ?_, ?_, ?_⟩
  · have hmap : (wevs.map wevToEffect).count (Effect.httpPost u) = 0 :=
      List.count_eq_zero.mpr (fun hmem => by
        obtain ⟨wev, -, hw⟩ := List.mem_map.mp hmem
        exact (wevToEffect_ne wev).2 u hw)
    simp [List.count_append, List.count_cons, hmap]
  · intro v hv
    simp only [List.mem_append, List.mem_cons, List.mem_map, List.mem_singleton,
      List.not_mem_nil, or_false] at hv
    rcases hv with (h | h | ⟨wev, -, h⟩) | h | h
    · cases h
    · cases h
    · exact absurd h ((wevToEffect_ne wev).2 v)
    · cases h
    · simpa using h
  · simp
  · intro hhttp
    constructor
    · simp [run, hok, hdry, hurl, hwatch, hhttp]
    · simp [mainRun, run, hok, hdry, hurl, hwatch, hhttp]
  · intro e hhttp
    constructor
    · simp [run, hok, hdry, hurl, hwatch, hhttp]
    · simp [mainRun, run, hok, hdry, hurl, hwatch, hhttp]

/-- Witness for C6 at the concrete world: the successful send yields exit 0
after exactly one post. -/
theorem C6_single_post_transport_only_witness :
    ∃ evs,
      evs.count (Effect.httpPost "https://x/y") = 1 ∧
      (∀ v, Effect.httpPost v ∈ evs → v = "https://x/y") ∧
      Effect.printLine ("Process stopped, sending notification: " ++ exWorld.cli.process_name) ∈ evs ∧
      (exWorld.httpResult "https://x/y" = Except.ok () →
        run exWorld = some (Except.ok (), evs) ∧ mainRun exWorld = some (0, evs, none)) ∧
      (∀ e, exWorld.httpResult "https://x/y" = Except.error e →
        run exWorld = some (Except.error ("http request failed: " ++ e), evs) ∧
        mainRun exWorld = some (1, evs, some ("error: " ++ ("http request failed: " ++ e)))) :=
  C6_single_post_transport_only exWorld rfl rfl "https://x/y" (by rfl)
    (watchTrace 1 7 3) (by rfl)

end NotifStopped
